import Mathlib

/-! Helpers of `echoext` for an echo request pipeline.

A shallow embedding of `echoext.go` and of the Go standard-library routines it
calls (`crypto/subtle`, `strings`, `net/http.StatusText`, `os.LookupEnv`),
followed by the properties of each helper.

Go strings are byte sequences, so they are modelled as lists of bytes; a Go
`map[string]T` is modelled by its lookup function (the comma-ok read).
-/

namespace Echoext

/-! ## Go values -/

/-- A Go `byte` (`uint8`). -/
abbrev Byte := Fin 256

/-- A Go `string`: an immutable sequence of bytes. -/
abbrev GoString := List Byte

/-- The bytes of an ASCII literal, used to write down example strings. -/
def bytes (s : String) : GoString :=
  s.toList.map (fun ch => Fin.ofNat ch.toNat)

/-! ## `crypto/subtle` -/

/-- Go `subtle.ConstantTimeByteEq`: `int((uint32(x^y) - 1) >> 31)`, the
subtraction wrapping around in 32 bits. -/
def ConstantTimeByteEq (x y : Byte) : Int :=
  ((((x ^^^ y).val + 2 ^ 32 - 1) % 2 ^ 32) >>> 31 : Nat)

/-- The loop of `subtle.ConstantTimeCompare`: `v |= x[i] ^ y[i]` for every
index, started from the accumulator `v`. -/
def ConstantTimeCompare.loop (v : Byte) : GoString → GoString → Byte
  | a :: x, b :: y => ConstantTimeCompare.loop (v ||| (a ^^^ b)) x y
  | _, _ => v

/-- Go `subtle.ConstantTimeCompare`: `0` at once when the lengths differ,
otherwise the accumulated difference is compared with zero. -/
def ConstantTimeCompare (x y : GoString) : Int :=
  if x.length ≠ y.length then 0
  else ConstantTimeByteEq (ConstantTimeCompare.loop 0 x y) 0

/-! ## `strings` -/

/-- Go `strings.HasPrefix`: `len(s) >= len(prefix) && s[:len(prefix)] == prefix`. -/
def HasPrefix (s pre : GoString) : Bool :=
  decide (s.length ≥ pre.length) && decide (s.take pre.length = pre)

/-- Go `strings.HasSuffix`:
`len(s) >= len(suffix) && s[len(s)-len(suffix):] == suffix`. -/
def HasSuffix (s suffix : GoString) : Bool :=
  decide (s.length ≥ suffix.length) && decide (s.drop (s.length - suffix.length) = suffix)

/-- The scan behind Go `strings.Index`: the first offset, counted from `i`, at
which `substr` starts in `s`, or `-1`.  The library reaches the same answer with
faster search routines. -/
def Index.scan (substr : GoString) : GoString → Nat → Int
  | [], i => if HasPrefix [] substr then (i : Int) else -1
  | a :: t, i => if HasPrefix (a :: t) substr then (i : Int) else Index.scan substr t (i + 1)

/-- Go `strings.Index`: the index of the first instance of `substr` in `s`, or
`-1` if `substr` is not present. -/
def Index (s substr : GoString) : Int :=
  Index.scan substr s 0

/-- Go `strings.Contains`: `Index(s, substr) >= 0`. -/
def Contains (s substr : GoString) : Bool :=
  decide (Index s substr ≥ 0)

/-! ## Maps, interface values, `fmt`, `net/http`, `os` -/

/-- A Go `map[string]α`, read through its lookup `v, ok := m[k]`. -/
abbrev GoMap (α : Type) := GoString → Option α

/-- The empty map. -/
def GoMap.empty {α : Type} : GoMap α := fun _ => none

/-- The assignment `m[k] = v`. -/
def GoMap.set {α : Type} (m : GoMap α) (k : GoString) (v : α) : GoMap α :=
  fun k' => if k' = k then some v else m k'

/-- A Go `interface{}` value: a string, an int, or a value of any other dynamic
type `ω`. -/
inductive Any (ω : Type) where
  | str (s : GoString)
  | int (n : Int)
  | dyn (v : ω)

/-- Go `strconv.Itoa`: the decimal text of an int. -/
def Itoa (n : Int) : GoString :=
  if n < 0 then bytes "-" ++ (Nat.toDigits 10 n.natAbs).map (fun ch => Fin.ofNat ch.toNat)
  else (Nat.toDigits 10 n.toNat).map (fun ch => Fin.ofNat ch.toNat)

/-- Go `fmt.Sprint` of one operand: a string is printed as it is, an int in
decimal, and any other value by the default format `render` of its type. -/
def Sprint {ω : Type} (render : ω → GoString) : Any ω → GoString
  | .str s => s
  | .int n => Itoa n
  | .dyn v => render v

/-- Go `http.StatusInternalServerError`. -/
def StatusInternalServerError : Int := 500

/-- Go `http.StatusText`: the reason phrase of a status code, empty when the
code is unknown. -/
def StatusText (code : Int) : GoString :=
  if code = 100 then bytes "Continue"
  else if code = 101 then bytes "Switching Protocols"
  else if code = 102 then bytes "Processing"
  else if code = 103 then bytes "Early Hints"
  else if code = 200 then bytes "OK"
  else if code = 201 then bytes "Created"
  else if code = 202 then bytes "Accepted"
  else if code = 203 then bytes "Non-Authoritative Information"
  else if code = 204 then bytes "No Content"
  else if code = 205 then bytes "Reset Content"
  else if code = 206 then bytes "Partial Content"
  else if code = 207 then bytes "Multi-Status"
  else if code = 208 then bytes "Already Reported"
  else if code = 226 then bytes "IM Used"
  else if code = 300 then bytes "Multiple Choices"
  else if code = 301 then bytes "Moved Permanently"
  else if code = 302 then bytes "Found"
  else if code = 303 then bytes "See Other"
  else if code = 304 then bytes "Not Modified"
  else if code = 305 then bytes "Use Proxy"
  else if code = 307 then bytes "Temporary Redirect"
  else if code = 308 then bytes "Permanent Redirect"
  else if code = 400 then bytes "Bad Request"
  else if code = 401 then bytes "Unauthorized"
  else if code = 402 then bytes "Payment Required"
  else if code = 403 then bytes "Forbidden"
  else if code = 404 then bytes "Not Found"
  else if code = 405 then bytes "Method Not Allowed"
  else if code = 406 then bytes "Not Acceptable"
  else if code = 407 then bytes "Proxy Authentication Required"
  else if code = 408 then bytes "Request Timeout"
  else if code = 409 then bytes "Conflict"
  else if code = 410 then bytes "Gone"
  else if code = 411 then bytes "Length Required"
  else if code = 412 then bytes "Precondition Failed"
  else if code = 413 then bytes "Request Entity Too Large"
  else if code = 414 then bytes "Request URI Too Long"
  else if code = 415 then bytes "Unsupported Media Type"
  else if code = 416 then bytes "Requested Range Not Satisfiable"
  else if code = 417 then bytes "Expectation Failed"
  else if code = 418 then bytes "I\x27m a teapot"
  else if code = 421 then bytes "Misdirected Request"
  else if code = 422 then bytes "Unprocessable Entity"
  else if code = 423 then bytes "Locked"
  else if code = 424 then bytes "Failed Dependency"
  else if code = 425 then bytes "Too Early"
  else if code = 426 then bytes "Upgrade Required"
  else if code = 428 then bytes "Precondition Required"
  else if code = 429 then bytes "Too Many Requests"
  else if code = 431 then bytes "Request Header Fields Too Large"
  else if code = 451 then bytes "Unavailable For Legal Reasons"
  else if code = 500 then bytes "Internal Server Error"
  else if code = 501 then bytes "Not Implemented"
  else if code = 502 then bytes "Bad Gateway"
  else if code = 503 then bytes "Service Unavailable"
  else if code = 504 then bytes "Gateway Timeout"
  else if code = 505 then bytes "HTTP Version Not Supported"
  else if code = 506 then bytes "Variant Also Negotiates"
  else if code = 507 then bytes "Insufficient Storage"
  else if code = 508 then bytes "Loop Detected"
  else if code = 510 then bytes "Not Extended"
  else if code = 511 then bytes "Network Authentication Required"
  else []

/-- The process environment as `os.LookupEnv` reads it: `none` for a variable
that is not set, `some v` for one set to `v` (which may be empty). -/
abbrev Env := GoMap GoString

/-! ## The framework boundary (`echo`) -/

/-- An `*echo.HTTPError`, with the two fields this package reads and sets. -/
structure HTTPError (ω : Type) where
  Code : Int
  Message : Any ω

/-- A Go `error` value by dynamic type: an `*echo.HTTPError`, or a value of any
other error type `ε`. -/
inductive GoError (ε ω : Type) where
  | http (he : HTTPError ω)
  | other (e : ε)

/-- The call `echo.NewHTTPError(code, message)`. -/
def NewHTTPError {ε ω : Type} (code : Int) (message : Any ω) : GoError ε ω :=
  .http { Code := code, Message := message }

/-- An `echo.Map` (`map[string]interface{}`) written as a literal, by its
entries. -/
abbrev Map (ω : Type) := List (GoString × Any ω)

/-- The body of a response: none, a plain text, or the JSON encoding of a map,
kept as the map. -/
inductive Body (ω : Type) where
  | empty
  | text (s : GoString)
  | json (i : Map ω)

/-- What a call of `c.String`, `c.JSON` or `c.NoContent` on a response not yet
committed hands to the `http.ResponseWriter`: a status and a body, or nothing
because `WriteHeader` panicked on the status, or nothing because the call
returned an error before it wrote. -/
inductive Reply (ω : Type) where
  | sent (status : Int) (body : Body ω)
  | panic
  | unwritten

/-- The status of a reply, when one was sent. -/
def Reply.status {ω : Type} : Reply ω → Option Int
  | .sent status _ => some status
  | .panic => none
  | .unwritten => none

/-- The text a reply carries in its body; nothing is carried when no body was
sent, and the body of `c.JSON` is structured and described by its map. -/
def Reply.text {ω : Type} : Reply ω → GoString
  | .sent _ (.text s) => s
  | _ => []

/-- Go `Response.WriteHeader(code)` followed by the write of `body`: `net/http`
panics (`invalid WriteHeader code`) when `code < 100 || code > 999`. -/
def WriteHeader {ω : Type} (code : Int) (body : Body ω) : Reply ω :=
  if code < 100 ∨ code > 999 then .panic else .sent code body

/-- The call `c.String(code, s)`: `WriteHeader(code)`, then the text. -/
def ContextString {ω : Type} (code : Int) (s : GoString) : Reply ω :=
  WriteHeader code (.text s)

/-- The call `c.NoContent(code)`: `WriteHeader(code)` and no body. -/
def ContextNoContent {ω : Type} (code : Int) : Reply ω :=
  WriteHeader code .empty

/-- Whether `encoding/json` can encode an interface value: a string and an int
always, a value of another type as `marshals` says. -/
def Marshals {ω : Type} (marshals : ω → Bool) : Any ω → Bool
  | .str _ => true
  | .int _ => true
  | .dyn v => marshals v

/-- The call `c.JSON(code, i)`: the status is stored, the map is encoded, and
the first `Write` sends the header with the stored status, `200` standing in for
a stored `0`; when the encoding fails the call returns the error and nothing is
written. -/
def ContextJSON {ω : Type} (marshals : ω → Bool) (code : Int) (i : Map ω) : Reply ω :=
  if i.all (fun entry => Marshals marshals entry.2) then
    WriteHeader (if code = 0 then 200 else code) (.json i)
  else .unwritten

/-- The request fields the helpers read: the method and `URL.Path`. -/
structure Request where
  Method : GoString
  Path : GoString

/-- An `echo.Context` during one request: the request, the response header
(`c.Response().Header()`), and in `world` every other piece of state a handler
can read or change. -/
structure Context (σ : Type) where
  request : Request
  header : GoMap (List GoString)
  world : σ

/-- An `echo.HandlerFunc`, `func(c echo.Context) error`: the state it leaves
behind and the error it returns (`none` for `nil`). -/
abbrev HandlerFunc (σ ε ω : Type) := Context σ → Context σ × Option (GoError ε ω)

/-- An `echo.MiddlewareFunc`, `func(next HandlerFunc) HandlerFunc`. -/
abbrev MiddlewareFunc (σ ε ω : Type) := HandlerFunc σ ε ω → HandlerFunc σ ε ω

/-- Go `echo.HeaderAccessControlAllowOrigin`. -/
def HeaderAccessControlAllowOrigin : GoString := bytes "Access-Control-Allow-Origin"

/-- Go `http.Header.Set` for a key in canonical form, as the header names of
`echo` are: the key is bound to the single value. -/
def HeaderSet (h : GoMap (List GoString)) (key value : GoString) : GoMap (List GoString) :=
  h.set key [value]

/-! ## `echoext.go` -/

/-- The handler returned by `BasicErrorHandler()`, applied to `err`. -/
def BasicErrorHandler {ε ω : Type} (render : ω → GoString) (err : GoError ε ω) : Reply ω :=
  match err with
  | .http he => ContextString he.Code (Sprint render he.Message)
  | .other _ => ContextNoContent StatusInternalServerError

/-- The handler returned by `JsonErrorHandler()`, applied to `err`. -/
def JsonErrorHandler {ε ω : Type} (marshals : ω → Bool) (err : GoError ε ω) : Reply ω :=
  match err with
  | .http he =>
    ContextJSON marshals he.Code [(bytes "status", he.Message), (bytes "code", .int he.Code)]
  | .other _ => ContextNoContent StatusInternalServerError

/-- The middleware `CorsAny()`. -/
def CorsAny {σ ε ω : Type} : MiddlewareFunc σ ε ω := fun next c =>
  next { c with header := HeaderSet c.header HeaderAccessControlAllowOrigin (bytes "*") }

/-- Go `type UserPass map[string]string`. -/
abbrev UserPass := GoMap GoString

/-- The function `BasicAuth(kv)` hands to `middleware.BasicAuth`: the verdict and
the error (`none` for `nil`). -/
def BasicAuth.validator {ε ω : Type} (kv : UserPass) (username password : GoString) :
    Bool × Option (GoError ε ω) :=
  match kv username with
  | none => (false, none)
  | some passwordCheck =>
    if ConstantTimeCompare password passwordCheck = 1 then (true, none)
    else (false, none)

/-- Go `type DisallowList []string`. -/
abbrev DisallowList := List GoString

/-- The `for _, txt := range list` loop of `DisallowInPath` over the entries
still to be visited. -/
def DisallowInPath.loop {σ ε ω : Type} (code : Int) (next : HandlerFunc σ ε ω) (c : Context σ) :
    DisallowList → Context σ × Option (GoError ε ω)
  | [] => next c
  | txt :: rest =>
    if Contains c.request.Path txt then (c, some (NewHTTPError code (.str (StatusText code))))
    else DisallowInPath.loop code next c rest

/-- The middleware `DisallowInPath(list, code)`. -/
def DisallowInPath {σ ε ω : Type} (list : DisallowList) (code : Int) : MiddlewareFunc σ ε ω :=
  fun next c => DisallowInPath.loop code next c list

/-- Go `EnvPortOr(port)`, with the environment it reads made explicit. -/
def EnvPortOr (env : Env) (port : GoString) : GoString × Bool :=
  match env (bytes "PORT") with
  | none => (bytes ":" ++ port, false)
  | some envPort => (bytes ":" ++ envPort, true)

/-- The `Skipper` that `GzipMiddleware(level, types...)` configures, applied to a
request path. -/
def GzipMiddleware.Skipper (types : List GoString) (path : GoString) : Bool :=
  let found := types.foldl (fun found ext => if HasSuffix path ext then true else found) false
  !found

/-! ## Counting calls of the next handler -/

/-- A handler that runs `next` and also counts the call in a counter kept beside
the state `next` works on. -/
def counted {σ ε ω : Type} (next : HandlerFunc σ ε ω) : HandlerFunc (σ × Nat) ε ω := fun c =>
  let r := next { request := c.request, header := c.header, world := c.world.1 }
  ({ request := r.1.request, header := r.1.header, world := (r.1.world, c.world.2 + 1) }, r.2)

/-- The number of calls counted so far. -/
def calls {σ : Type} (c : Context (σ × Nat)) : Nat := c.world.2

/-- The count `n` placed beside the state of `c`. -/
def withCalls {σ : Type} (c : Context σ) (n : Nat) : Context (σ × Nat) :=
  { request := c.request, header := c.header, world := (c.world, n) }

/-! ## Vocabulary of the properties -/

/-- The string `txt` occurs in `s` as a contiguous run of bytes. -/
def IsSubstring (txt s : GoString) : Prop := ∃ pre post, s = pre ++ txt ++ post

/-- The string `s` ends with `ext`. -/
def EndsWith (s ext : GoString) : Prop := ∃ pre, s = pre ++ ext

/-- Some entry of the list occurs in the path. -/
def Blocked (list : DisallowList) (path : GoString) : Prop :=
  ∃ txt, txt ∈ list ∧ IsSubstring txt path

/-- The error `DisallowInPath` rejects with: an HTTP error holding the code and
the reason phrase of the code. -/
def rejection {ε ω : Type} (code : Int) : GoError ε ω :=
  .http { Code := code, Message := .str (StatusText code) }

/-- A table with the single entry `alice` / `secret`. -/
def aliceTable : UserPass := GoMap.empty.set (bytes "alice") (bytes "secret")

/-- A context for a `GET` of `path`, with no response header set yet. -/
def getContext (path : String) : Context Unit :=
  { request := { Method := bytes "GET", Path := bytes path }, header := GoMap.empty, world := () }

/-- A final handler that succeeds and changes nothing. -/
def okHandler : HandlerFunc Unit Unit Unit := fun c => (c, none)

/-! ## Library lemmas -/

theorem byte_xor_eq_zero (a b : Byte) : a ^^^ b = 0 ↔ a = b := by
  constructor
  · intro h
    have h1 : (a ^^^ b).val = 0 := by rw [h]; rfl
    have h2 : (a ^^^ b).val = (a.val ^^^ b.val) % 256 := rfl
    have h3 : a.val ^^^ b.val < 256 := Nat.xor_lt_two_pow (n := 8) a.isLt b.isLt
    rw [h2, Nat.mod_eq_of_lt h3] at h1
    exact Fin.ext (Nat.xor_eq_zero.mp h1)
  · rintro rfl
    apply Fin.ext
    show (a.val ^^^ a.val) % 256 = 0
    simp

theorem nat_or_eq_zero {x y : Nat} (h : x ||| y = 0) : x = 0 ∧ y = 0 := by
  have key : ∀ i, x.testBit i = false ∧ y.testBit i = false := by
    intro i
    have hi : (x ||| y).testBit i = false := by rw [h]; exact Nat.zero_testBit i
    rw [Nat.testBit_or, Bool.or_eq_false_iff] at hi
    exact hi
  constructor
  · exact Nat.eq_of_testBit_eq (fun i => by rw [(key i).1, Nat.zero_testBit])
  · exact Nat.eq_of_testBit_eq (fun i => by rw [(key i).2, Nat.zero_testBit])

theorem byte_or_eq_zero (a b : Byte) : a ||| b = 0 ↔ a = 0 ∧ b = 0 := by
  constructor
  · intro h
    have h1 : (a ||| b).val = 0 := by rw [h]; rfl
    have h2 : (a ||| b).val = (a.val ||| b.val) % 256 := rfl
    have h3 : a.val ||| b.val < 256 := Nat.or_lt_two_pow (n := 8) a.isLt b.isLt
    rw [h2, Nat.mod_eq_of_lt h3] at h1
    have h4 := nat_or_eq_zero h1
    exact ⟨Fin.ext h4.1, Fin.ext h4.2⟩
  · rintro ⟨rfl, rfl⟩
    rfl

theorem ConstantTimeByteEq_zero (v : Byte) : ConstantTimeByteEq v 0 = 1 ↔ v = 0 := by
  have hx : (v ^^^ 0).val = v.val := by
    show (v.val ^^^ 0) % 256 = v.val
    rw [Nat.xor_zero, Nat.mod_eq_of_lt v.isLt]
  unfold ConstantTimeByteEq
  rw [hx, Nat.shiftRight_eq_div_pow]
  constructor
  · intro h
    have hv := v.isLt
    apply Fin.ext
    show v.val = 0
    by_contra hne
    have h1 : (v.val + 2 ^ 32 - 1) % 2 ^ 32 = v.val - 1 := by omega
    rw [h1] at h
    have h2 : (v.val - 1) / 2 ^ 31 = 0 := Nat.div_eq_of_lt (by omega)
    rw [h2] at h
    exact absurd h (by decide)
  · rintro rfl
    decide

theorem ConstantTimeCompare_loop_eq_zero (x : GoString) :
    ∀ (v : Byte) (y : GoString), x.length = y.length →
      (ConstantTimeCompare.loop v x y = 0 ↔ v = 0 ∧ x = y) := by
  induction x with
  | nil =>
    intro v y hlen
    cases y with
    | nil => simp [ConstantTimeCompare.loop]
    | cons b y => simp at hlen
  | cons a x ih =>
    intro v y hlen
    cases y with
    | nil => simp at hlen
    | cons b y =>
      have hlen2 : x.length = y.length := by simpa using hlen
      rw [ConstantTimeCompare.loop, ih _ _ hlen2, byte_or_eq_zero, byte_xor_eq_zero]
      constructor
      · rintro ⟨⟨hv, hab⟩, hxy⟩
        exact ⟨hv, by rw [hab, hxy]⟩
      · rintro ⟨hv, hxy⟩
        injection hxy with hab hxy2
        exact ⟨⟨hv, hab⟩, hxy2⟩

theorem ConstantTimeCompare_eq_one (x y : GoString) : ConstantTimeCompare x y = 1 ↔ x = y := by
  unfold ConstantTimeCompare
  by_cases hlen : x.length = y.length
  · rw [if_neg (not_not.mpr hlen), ConstantTimeByteEq_zero,
      ConstantTimeCompare_loop_eq_zero x 0 y hlen]
    simp
  · rw [if_pos hlen]
    constructor
    · intro h
      exact absurd h (by decide)
    · intro h
      exact absurd (congrArg List.length h) hlen

theorem HasPrefix_iff (s pre : GoString) : HasPrefix s pre = true ↔ ∃ post, s = pre ++ post := by
  unfold HasPrefix
  rw [Bool.and_eq_true, decide_eq_true_iff, decide_eq_true_iff]
  constructor
  · rintro ⟨_, h⟩
    refine ⟨s.drop pre.length, ?_⟩
    conv_lhs => rw [← List.take_append_drop pre.length s]
    rw [h]
  · rintro ⟨post, rfl⟩
    constructor
    · simp
    · simp

theorem HasSuffix_iff (s suffix : GoString) :
    HasSuffix s suffix = true ↔ ∃ pre, s = pre ++ suffix := by
  unfold HasSuffix
  rw [Bool.and_eq_true, decide_eq_true_iff, decide_eq_true_iff]
  constructor
  · rintro ⟨_, h⟩
    refine ⟨s.take (s.length - suffix.length), ?_⟩
    conv_lhs => rw [← List.take_append_drop (s.length - suffix.length) s]
    rw [h]
  · rintro ⟨pre, rfl⟩
    constructor
    · simp
    · simp

theorem Index_scan_nonneg (substr : GoString) (s : GoString) :
    ∀ i : Nat, 0 ≤ Index.scan substr s i ↔ ∃ pre post, s = pre ++ substr ++ post := by
  induction s with
  | nil =>
    intro i
    unfold Index.scan
    by_cases hp : HasPrefix [] substr = true
    · rw [if_pos hp]
      obtain ⟨post, hpost⟩ := (HasPrefix_iff _ _).mp hp
      constructor
      · intro _
        exact ⟨[], post, by simpa using hpost⟩
      · intro _
        exact Int.ofNat_nonneg i
    · rw [if_neg hp]
      constructor
      · intro h
        exact absurd h (by decide)
      · rintro ⟨pre, post, h⟩
        exfalso
        apply hp
        rw [HasPrefix_iff]
        have h1 : pre ++ substr ++ post = [] := h.symm
        simp only [List.append_eq_nil] at h1
        exact ⟨[], by simp [h1.1.2]⟩
  | cons a t ih =>
    intro i
    unfold Index.scan
    by_cases hp : HasPrefix (a :: t) substr = true
    · rw [if_pos hp]
      obtain ⟨post, hpost⟩ := (HasPrefix_iff _ _).mp hp
      constructor
      · intro _
        exact ⟨[], post, by simpa using hpost⟩
      · intro _
        exact Int.ofNat_nonneg i
    · rw [if_neg hp, ih (i + 1)]
      constructor
      · rintro ⟨pre, post, h⟩
        exact ⟨a :: pre, post, by rw [h]; simp⟩
      · rintro ⟨pre, post, h⟩
        cases pre with
        | nil =>
          exfalso
          apply hp
          rw [HasPrefix_iff]
          exact ⟨post, by simpa using h⟩
        | cons b pre =>
          simp only [List.cons_append, List.cons.injEq] at h
          exact ⟨pre, post, h.2⟩

theorem Contains_iff (s substr : GoString) :
    Contains s substr = true ↔ ∃ pre post, s = pre ++ substr ++ post := by
  unfold Contains Index
  rw [decide_eq_true_iff]
  exact Index_scan_nonneg substr s 0

theorem Skipper_foldl (path : GoString) (types : List GoString) :
    ∀ found : Bool,
      types.foldl (fun found ext => if HasSuffix path ext then true else found) found
        = (found || types.any (fun ext => HasSuffix path ext)) := by
  induction types with
  | nil => intro found; simp
  | cons ext rest ih =>
    intro found
    rw [List.foldl_cons, ih, List.any_cons]
    cases HasSuffix path ext <;> cases found <;> simp

theorem DisallowInPath_loop_hit {σ ε ω : Type} (code : Int) (next : HandlerFunc σ ε ω)
    (c : Context σ) (list : DisallowList)
    (h : ∃ txt, txt ∈ list ∧ Contains c.request.Path txt = true) :
    DisallowInPath.loop code next c list
      = (c, some (NewHTTPError code (.str (StatusText code)))) := by
  induction list with
  | nil =>
    obtain ⟨txt, hmem, _⟩ := h
    simp at hmem
  | cons t rest ih =>
    unfold DisallowInPath.loop
    by_cases ht : Contains c.request.Path t = true
    · rw [if_pos ht]
    · rw [if_neg ht]
      apply ih
      obtain ⟨txt, hmem, hc⟩ := h
      rcases List.mem_cons.mp hmem with rfl | hmem2
      · exact absurd hc ht
      · exact ⟨txt, hmem2, hc⟩

theorem DisallowInPath_loop_miss {σ ε ω : Type} (code : Int) (next : HandlerFunc σ ε ω)
    (c : Context σ) (list : DisallowList)
    (h : ∀ txt, txt ∈ list → Contains c.request.Path txt = false) :
    DisallowInPath.loop code next c list = next c := by
  induction list with
  | nil => rfl
  | cons t rest ih =>
    unfold DisallowInPath.loop
    rw [h t (List.mem_cons_self _ _)]
    simp only [Bool.false_eq_true, if_false]
    exact ih (fun txt hmem => h txt (List.mem_cons_of_mem _ hmem))

theorem BasicAuth_validator_eq {ε ω : Type} (kv : UserPass) (username password : GoString) :
    (BasicAuth.validator kv username password : Bool × Option (GoError ε ω))
      = (decide (kv username = some password), none) := by
  unfold BasicAuth.validator
  cases kv username with
  | none => simp
  | some stored =>
    by_cases heq : password = stored
    · subst heq
      have h1 : ConstantTimeCompare password password = 1 :=
        (ConstantTimeCompare_eq_one _ _).mpr rfl
      simp [h1]
    · have h1 : ¬ ConstantTimeCompare password stored = 1 :=
        fun h => heq ((ConstantTimeCompare_eq_one _ _).mp h)
      have h2 : ¬ stored = password := fun h => heq h.symm
      simp [h1, h2]

theorem Blocked_iff_any (list : DisallowList) (path : GoString) :
    Blocked list path ↔ list.any (fun txt => Contains path txt) = true := by
  unfold Blocked IsSubstring
  rw [List.any_eq_true]
  constructor
  · rintro ⟨txt, hmem, h⟩
    exact ⟨txt, hmem, (Contains_iff _ _).mpr h⟩
  · rintro ⟨txt, hmem, h⟩
    exact ⟨txt, hmem, (Contains_iff _ _).mp h⟩

theorem DisallowInPath_of_blocked {σ ε ω : Type} (list : DisallowList) (code : Int)
    (next : HandlerFunc σ ε ω) (c : Context σ) (h : Blocked list c.request.Path) :
    DisallowInPath list code next c = (c, some (rejection code)) := by
  obtain ⟨txt, hmem, hsub⟩ := h
  exact DisallowInPath_loop_hit code next c list ⟨txt, hmem, (Contains_iff _ _).mpr hsub⟩

theorem DisallowInPath_of_not_blocked {σ ε ω : Type} (list : DisallowList) (code : Int)
    (next : HandlerFunc σ ε ω) (c : Context σ) (h : ¬ Blocked list c.request.Path) :
    DisallowInPath list code next c = next c := by
  apply DisallowInPath_loop_miss
  intro txt hmem
  cases hc : Contains c.request.Path txt with
  | false => rfl
  | true => exact absurd ⟨txt, hmem, (Contains_iff _ _).mp hc⟩ h

/-! ## Properties of the helpers -/

/-- C1. The credential predicate of `BasicAuth` accepts exactly when the username
is a key of the table and the supplied password equals the stored one byte for
byte; a password of another length is rejected; the error is always `nil`. -/
theorem BasicAuth_validator_spec {ε ω : Type} (kv : UserPass) (username password : GoString) :
    ((BasicAuth.validator kv username password : Bool × Option (GoError ε ω)).1 = true
        ↔ ∃ stored, kv username = some stored ∧ password = stored)
    ∧ (∀ stored, kv username = some stored → password.length ≠ stored.length →
        (BasicAuth.validator kv username password : Bool × Option (GoError ε ω)).1 = false)
    ∧ (BasicAuth.validator kv username password : Bool × Option (GoError ε ω)).2 = none := by
  rw [BasicAuth_validator_eq]
  refine ⟨?_, ?_, rfl⟩
  · show decide (kv username = some password) = true ↔ _
    rw [decide_eq_true_iff]
    constructor
    · intro h
      exact ⟨password, h, rfl⟩
    · rintro ⟨stored, hst, rfl⟩
      exact hst
  · intro stored hst hlen
    show decide (kv username = some password) = false
    rw [decide_eq_false_iff_not, hst]
    intro h
    injection h with h
    exact hlen (congrArg List.length h.symm)

/-- C1 at the table `alice` / `secret`: `alice` with `secret` is accepted, `alice`
with `wrong` or with the equally long `secreT` is refused, and `bob` is refused
with every password. -/
theorem BasicAuth_validator_spec_witness :
    (BasicAuth.validator aliceTable (bytes "alice") (bytes "secret")
        : Bool × Option (GoError Unit Unit)) = (true, none)
    ∧ (BasicAuth.validator aliceTable (bytes "alice") (bytes "wrong")
        : Bool × Option (GoError Unit Unit)).1 = false
    ∧ (BasicAuth.validator aliceTable (bytes "alice") (bytes "secreT")
        : Bool × Option (GoError Unit Unit)).1 = false
    ∧ ∀ password : GoString, (BasicAuth.validator aliceTable (bytes "bob") password
        : Bool × Option (GoError Unit Unit)).1 = false :=
  ⟨Prod.ext
      ((BasicAuth_validator_spec aliceTable (bytes "alice") (bytes "secret")).1.mpr
        ⟨bytes "secret", by decide, rfl⟩)
      (BasicAuth_validator_spec aliceTable (bytes "alice") (bytes "secret")).2.2,
   (BasicAuth_validator_spec aliceTable (bytes "alice") (bytes "wrong")).2.1
      (bytes "secret") (by decide) (by decide),
   Bool.eq_false_iff.mpr (fun h =>
      absurd ((BasicAuth_validator_spec aliceTable (bytes "alice") (bytes "secreT")).1.mp h)
        (by
          rintro ⟨stored, hst, hp⟩
          have h2 : aliceTable (bytes "alice") = some (bytes "secret") := by decide
          rw [h2] at hst
          injection hst with hst
          rw [← hst] at hp
          exact absurd hp (by decide))),
   fun password => Bool.eq_false_iff.mpr (fun h =>
      absurd ((BasicAuth_validator_spec aliceTable (bytes "bob") password).1.mp h)
        (by
          rintro ⟨stored, hst, _⟩
          have h2 : aliceTable (bytes "bob") = none := by decide
          rw [h2] at hst
          exact absurd hst (by simp)))⟩

/-- C2. The step of `DisallowInPath` returns an HTTP error with the given code and
the reason phrase of that code, leaving the state as it was and not calling
`next`, when some entry of the list is a substring of the request path;
otherwise it returns what `next` returns on the same request, calling it once. -/
theorem DisallowInPath_spec {σ ε ω : Type} (list : DisallowList) (code : Int)
    (next : HandlerFunc σ ε ω) (c : Context σ) (n : Nat) :
    (Blocked list c.request.Path →
        DisallowInPath list code next c
            = (c, some (.http { Code := code, Message := .str (StatusText code) }))
        ∧ calls (DisallowInPath list code (counted next) (withCalls c n)).1 = n)
    ∧ (¬ Blocked list c.request.Path →
        DisallowInPath list code next c = next c
        ∧ calls (DisallowInPath list code (counted next) (withCalls c n)).1 = n + 1) := by
  constructor
  · intro h
    refine ⟨DisallowInPath_of_blocked list code next c h, ?_⟩
    rw [DisallowInPath_of_blocked list code (counted next) (withCalls c n) h]
    rfl
  · intro h
    refine ⟨DisallowInPath_of_not_blocked list code next c h, ?_⟩
    rw [DisallowInPath_of_not_blocked list code (counted next) (withCalls c n) h]
    rfl

/-- C2 at the list `["admin", "secret"]` and code 403: `/admin/users` and
`/my-secret-page` are rejected with 403 "Forbidden", `/public` passes through. -/
theorem DisallowInPath_spec_witness :
    StatusText 403 = bytes "Forbidden"
    ∧ DisallowInPath [bytes "admin", bytes "secret"] 403 okHandler (getContext "/admin/users")
        = (getContext "/admin/users",
            some (.http { Code := 403, Message := .str (StatusText 403) }))
    ∧ DisallowInPath [bytes "admin", bytes "secret"] 403 okHandler (getContext "/my-secret-page")
        = (getContext "/my-secret-page",
            some (.http { Code := 403, Message := .str (StatusText 403) }))
    ∧ DisallowInPath [bytes "admin", bytes "secret"] 403 okHandler (getContext "/public")
        = okHandler (getContext "/public") :=
  ⟨by decide,
   ((DisallowInPath_spec [bytes "admin", bytes "secret"] 403 okHandler
      (getContext "/admin/users") 0).1 ((Blocked_iff_any _ _).mpr (by decide))).1,
   ((DisallowInPath_spec [bytes "admin", bytes "secret"] 403 okHandler
      (getContext "/my-secret-page") 0).1 ((Blocked_iff_any _ _).mpr (by decide))).1,
   ((DisallowInPath_spec [bytes "admin", bytes "secret"] 403 okHandler
      (getContext "/public") 0).2 (fun h => absurd ((Blocked_iff_any _ _).mp h) (by decide))).1⟩

/-- C3 as stated fails: with `PORT` set to the empty string and default `8080`
the result is `(":", true)`, not `(":8080", false)`. -/
theorem EnvPortOr_empty_counterexample :
    EnvPortOr (GoMap.empty.set (bytes "PORT") []) (bytes "8080") = (bytes ":", true)
    ∧ EnvPortOr (GoMap.empty.set (bytes "PORT") []) (bytes "8080")
        ≠ (bytes ":" ++ bytes "8080", false) := by
  decide

/-- C3, amended. When `PORT` is set to the empty string, `EnvPortOr` takes the
variable as present: for every default port it returns `(":", true)`. -/
theorem EnvPortOr_empty (env : Env) (p : GoString) (h : env (bytes "PORT") = some []) :
    EnvPortOr env p = (bytes ":", true) := by
  unfold EnvPortOr
  rw [h]
  rfl

/-- C3, amended, at the environment that sets only `PORT=` and default `8080`. -/
theorem EnvPortOr_empty_witness :
    EnvPortOr (GoMap.empty.set (bytes "PORT") []) (bytes "8080") = (bytes ":", true) :=
  EnvPortOr_empty (GoMap.empty.set (bytes "PORT") []) (bytes "8080") (by decide)

/-- C4. With `PORT` not set `EnvPortOr` returns the default after a colon and
`false`; with `PORT` set to a non-empty value it returns that value, unchanged and
unvalidated, after a colon and `true`, whatever the default is. -/
theorem EnvPortOr_spec (env : Env) (p : GoString) :
    (env (bytes "PORT") = none → EnvPortOr env p = (bytes ":" ++ p, false))
    ∧ (∀ v : GoString, v ≠ [] → env (bytes "PORT") = some v →
        EnvPortOr env p = (bytes ":" ++ v, true)) := by
  unfold EnvPortOr
  constructor
  · intro h
    rw [h]
  · intro v _ h
    rw [h]

/-- C4 with default `8080`: no `PORT` gives `(":8080", false)`, `PORT=9090` gives
`(":9090", true)`, and the non-numeric `PORT=http` gives `(":http", true)`. -/
theorem EnvPortOr_spec_witness :
    EnvPortOr GoMap.empty (bytes "8080") = (bytes ":8080", false)
    ∧ EnvPortOr (GoMap.empty.set (bytes "PORT") (bytes "9090")) (bytes "8080")
        = (bytes ":9090", true)
    ∧ EnvPortOr (GoMap.empty.set (bytes "PORT") (bytes "http")) (bytes "8080")
        = (bytes ":http", true) :=
  ⟨(EnvPortOr_spec GoMap.empty (bytes "8080")).1 (by decide),
   (EnvPortOr_spec (GoMap.empty.set (bytes "PORT") (bytes "9090")) (bytes "8080")).2
      (bytes "9090") (by decide) (by decide),
   (EnvPortOr_spec (GoMap.empty.set (bytes "PORT") (bytes "http")) (bytes "8080")).2
      (bytes "http") (by decide) (by decide)⟩

/-- C5. The skip predicate of `GzipMiddleware` is true exactly when the path
ends with none of the suffixes, bytes compared as they are; for `.js` and `.css`
the path `/app.js` is not skipped, `/index.html` is, and so is `/APP.JS`. -/
theorem GzipMiddleware_Skipper_spec (types : List GoString) (path : GoString) :
    (GzipMiddleware.Skipper types path = true ↔ ∀ ext, ext ∈ types → ¬ EndsWith path ext)
    ∧ GzipMiddleware.Skipper [bytes ".js", bytes ".css"] (bytes "/app.js") = false
    ∧ GzipMiddleware.Skipper [bytes ".js", bytes ".css"] (bytes "/index.html") = true
    ∧ GzipMiddleware.Skipper [bytes ".js", bytes ".css"] (bytes "/APP.JS") = true := by
  refine ⟨?_, by decide, by decide, by decide⟩
  unfold GzipMiddleware.Skipper EndsWith
  rw [Skipper_foldl]
  simp only [Bool.false_or, Bool.not_eq_true', List.any_eq_false]
  constructor
  · intro h ext hmem hend
    exact h ext hmem ((HasSuffix_iff _ _).mpr hend)
  · intro h ext hmem hs
    exact h ext hmem ((HasSuffix_iff _ _).mp hs)

/-- C6 as stated fails. For the error `DisallowInPath(list, 0)` returns, code 0
with an empty message, `BasicErrorHandler` panics in `WriteHeader` and sends
nothing, and `JsonErrorHandler` sends status 200, not 0; for code 1000 both panic;
and for a message JSON cannot encode `JsonErrorHandler` writes nothing. -/
theorem ErrorHandlers_recognized_counterexample :
    BasicErrorHandler (fun _ => []) (NewHTTPError 0 (.str (StatusText 0)) : GoError Unit Unit)
        = .panic
    ∧ (BasicErrorHandler (fun _ => [])
        (NewHTTPError 0 (.str (StatusText 0)) : GoError Unit Unit)).status ≠ some 0
    ∧ JsonErrorHandler (fun _ => false) (NewHTTPError 0 (.str (StatusText 0)) : GoError Unit Unit)
        = .sent 200 (.json [(bytes "status", .str []), (bytes "code", .int 0)])
    ∧ (JsonErrorHandler (fun _ => false)
        (NewHTTPError 0 (.str (StatusText 0)) : GoError Unit Unit)).status ≠ some 0
    ∧ BasicErrorHandler (fun _ => [])
        (NewHTTPError 1000 (.str (bytes "x")) : GoError Unit Unit) = .panic
    ∧ JsonErrorHandler (fun _ => false)
        (NewHTTPError 1000 (.str (bytes "x")) : GoError Unit Unit) = .panic
    ∧ JsonErrorHandler (fun _ => false) (NewHTTPError 403 (.dyn ()) : GoError Unit Unit)
        = .unwritten :=
  ⟨rfl, by simp [BasicErrorHandler, NewHTTPError, ContextString, WriteHeader, Reply.status],
   rfl, by simp [JsonErrorHandler, NewHTTPError, ContextJSON, WriteHeader, Reply.status, Marshals],
   rfl, rfl, rfl⟩

/-- C6, amended. For an HTTP error with a code `k` that `WriteHeader` accepts,
`100 ≤ k ≤ 999`, and message `m`, `BasicErrorHandler` sends status `k` with the
text of `m` as body (`m` itself when it is a string), and `JsonErrorHandler`
sends status `k` with the map of `status` bound to `m` and `code` bound to `k`,
when JSON can encode `m` (as it can every string). -/
theorem ErrorHandlers_recognized {ε ω : Type} (render : ω → GoString) (marshals : ω → Bool)
    (k : Int) (m : Any ω) (s : GoString) (hlo : 100 ≤ k) (hhi : k ≤ 999) :
    BasicErrorHandler render (.http { Code := k, Message := m } : GoError ε ω)
        = .sent k (.text (Sprint render m))
    ∧ BasicErrorHandler render (.http { Code := k, Message := .str s } : GoError ε ω)
        = .sent k (.text s)
    ∧ (Marshals marshals m = true →
        JsonErrorHandler marshals (.http { Code := k, Message := m } : GoError ε ω)
          = .sent k (.json [(bytes "status", m), (bytes "code", .int k)]))
    ∧ JsonErrorHandler marshals (.http { Code := k, Message := .str s } : GoError ε ω)
        = .sent k (.json [(bytes "status", .str s), (bytes "code", .int k)]) := by
  have hw : ∀ body : Body ω, WriteHeader k body = .sent k body := by
    intro body
    unfold WriteHeader
    rw [if_neg (by omega)]
  have h0 : ¬ k = 0 := by omega
  have hj : ∀ msg : Any ω, Marshals marshals msg = true →
      JsonErrorHandler marshals (.http { Code := k, Message := msg } : GoError ε ω)
        = .sent k (.json [(bytes "status", msg), (bytes "code", .int k)]) := by
    intro msg hmsg
    show ContextJSON marshals k [(bytes "status", msg), (bytes "code", .int k)] = _
    unfold ContextJSON
    have hall : List.all [(bytes "status", msg), (bytes "code", Any.int k)]
        (fun entry => Marshals marshals entry.2) = true := by
      show (Marshals marshals msg && (Marshals marshals (Any.int k) && true)) = true
      rw [hmsg]
      rfl
    rw [if_pos hall, if_neg h0, hw]
  exact ⟨hw _, hw _, hj m, hj (.str s) rfl⟩

/-- C6, amended, at the error `DisallowInPath(list, 403)` returns: the plain
handler sends 403 with the text `Forbidden`, the JSON handler 403 with the map of
`status` bound to `Forbidden` and `code` bound to 403. -/
theorem ErrorHandlers_recognized_witness :
    BasicErrorHandler (fun _ => []) (NewHTTPError 403 (.str (StatusText 403)) : GoError Unit Unit)
        = .sent 403 (.text (bytes "Forbidden"))
    ∧ JsonErrorHandler (fun _ => false)
        (NewHTTPError 403 (.str (StatusText 403)) : GoError Unit Unit)
        = .sent 403 (.json [(bytes "status", .str (bytes "Forbidden")), (bytes "code", .int 403)]) :=
  ⟨(ErrorHandlers_recognized (fun _ => []) (fun _ => false) 403 (.str (StatusText 403))
      (bytes "Forbidden") (by decide) (by decide)).2.1,
   (ErrorHandlers_recognized (fun _ => []) (fun _ => false) 403 (.str (StatusText 403))
      (bytes "Forbidden") (by decide) (by decide)).2.2.2⟩

/-- C7. For an error that is not an HTTP error, both handlers reply with status
500 and no body; the reply is the same whichever such error is handled, and no
non-empty text, the message of the error included, occurs in the body. -/
theorem ErrorHandlers_unrecognized {ε ω : Type} (render : ω → GoString) (marshals : ω → Bool)
    (e e2 : ε) (message : ε → GoString) :
    BasicErrorHandler render (.other e : GoError ε ω) = .sent 500 .empty
    ∧ JsonErrorHandler marshals (.other e : GoError ε ω) = .sent 500 .empty
    ∧ (BasicErrorHandler render (.other e : GoError ε ω)).status = some 500
    ∧ (BasicErrorHandler render (.other e : GoError ε ω)).text = []
    ∧ (JsonErrorHandler marshals (.other e : GoError ε ω)).status = some 500
    ∧ (JsonErrorHandler marshals (.other e : GoError ε ω)).text = []
    ∧ BasicErrorHandler render (.other e2 : GoError ε ω) = BasicErrorHandler render (.other e)
    ∧ JsonErrorHandler marshals (.other e2 : GoError ε ω)
        = JsonErrorHandler marshals (.other e)
    ∧ (message e ≠ [] →
        ¬ IsSubstring (message e) (BasicErrorHandler render (.other e : GoError ε ω)).text
        ∧ ¬ IsSubstring (message e)
            (JsonErrorHandler marshals (.other e : GoError ε ω)).text) := by
  refine ⟨rfl, rfl, rfl, rfl, rfl, rfl, rfl, rfl, ?_⟩
  intro hne
  have key : ¬ IsSubstring (message e) [] := by
    rintro ⟨pre, post, h⟩
    have h1 : pre ++ message e ++ post = [] := h.symm
    simp only [List.append_eq_nil] at h1
    exact hne h1.1.2
  exact ⟨key, key⟩

/-- C8. The step of `CorsAny` hands `next` the same request and state with the
response header `Access-Control-Allow-Origin` bound to exactly `*` and every
other header as before, returns what `next` returns, and calls `next` once. -/
theorem CorsAny_spec {σ ε ω : Type} (next : HandlerFunc σ ε ω) (c : Context σ) (n : Nat) :
    ∃ c1 : Context σ,
      CorsAny next c = next c1
      ∧ c1.request = c.request
      ∧ c1.world = c.world
      ∧ c1.header HeaderAccessControlAllowOrigin = some [bytes "*"]
      ∧ (∀ key, key ≠ HeaderAccessControlAllowOrigin → c1.header key = c.header key)
      ∧ calls (CorsAny (counted next) (withCalls c n)).1 = n + 1 := by
  refine ⟨{ c with header := HeaderSet c.header HeaderAccessControlAllowOrigin (bytes "*") },
    rfl, rfl, rfl, ?_, ?_, rfl⟩
  · show (if HeaderAccessControlAllowOrigin = HeaderAccessControlAllowOrigin
        then some [bytes "*"] else c.header HeaderAccessControlAllowOrigin) = some [bytes "*"]
    rw [if_pos rfl]
  · intro key hkey
    show (if key = HeaderAccessControlAllowOrigin then some [bytes "*"] else c.header key)
      = c.header key
    rw [if_neg hkey]

/-- C10. When the list of `DisallowInPath` holds the empty string, every request,
whatever its path, is rejected with the configured code and `next` is not called;
when the list is empty, every request goes to `next`, which is called once. -/
theorem DisallowInPath_degenerate {σ ε ω : Type} (list : DisallowList) (code : Int)
    (next : HandlerFunc σ ε ω) (c : Context σ) (n : Nat) :
    (([] : GoString) ∈ list →
        DisallowInPath list code next c
            = (c, some (.http { Code := code, Message := .str (StatusText code) }))
        ∧ calls (DisallowInPath list code (counted next) (withCalls c n)).1 = n)
    ∧ DisallowInPath [] code next c = next c
    ∧ calls (DisallowInPath [] code (counted next) (withCalls c n)).1 = n + 1 := by
  refine ⟨?_, rfl, rfl⟩
  intro hmem
  have hb : ∀ path : GoString, Blocked list path :=
    fun path => ⟨[], hmem, [], path, rfl⟩
  refine ⟨DisallowInPath_of_blocked list code next c (hb _), ?_⟩
  rw [DisallowInPath_of_blocked list code (counted next) (withCalls c n) (hb _)]
  rfl

/-- C10 at the list `["admin", ""]` with code 404: the empty path and `/public`
are both rejected with 404; with the empty list `/public` reaches `next`. -/
theorem DisallowInPath_degenerate_witness :
    DisallowInPath [bytes "admin", []] 404 okHandler (getContext "")
        = (getContext "", some (.http { Code := 404, Message := .str (StatusText 404) }))
    ∧ DisallowInPath [bytes "admin", []] 404 okHandler (getContext "/public")
        = (getContext "/public",
            some (.http { Code := 404, Message := .str (StatusText 404) }))
    ∧ DisallowInPath [] 404 okHandler (getContext "/public") = okHandler (getContext "/public") :=
  ⟨((DisallowInPath_degenerate [bytes "admin", []] 404 okHandler (getContext "") 0).1
      (by decide)).1,
   ((DisallowInPath_degenerate [bytes "admin", []] 404 okHandler (getContext "/public") 0).1
      (by decide)).1,
   (DisallowInPath_degenerate [bytes "admin", []] 404 okHandler (getContext "/public") 0).2.1⟩

end Echoext
